import Mathlib

/-!
Verification of the transcript-fetch-and-score pipeline.

The Python sources are shallowly embedded as executable Lean definitions:

* `filter_fitness_videos.py` : keyword scorer (`calculate_fitness_score`,
  `load_transcript`, `find_fitness_videos`).
* `fetch_transcripts_ytdlp.py` : transcript fetcher (`fetch_transcript_ytdlp`
  modelled from the point after the subprocess call, as a function of the
  file-system contents) and the batch runner (`process_videos`).
* `extract_channel_videos.py` : channel enumerator (`fetch_channel_videos`
  as a function of the subprocess outcome) and `extract_channel_urls`.
* `extract_youtube_urls.py` : URL extractor (`extract_youtube_videos`).

Python string primitives (`str.strip`, `str.split`, `str.replace`,
`str.find`, `re.findall` on the concrete patterns used by the sources) are
embedded as structurally recursive functions on `List Char` so that every
definition evaluates by kernel reduction.  Regular-expression word classes
(`\w`) are modelled over their ASCII meaning, which covers every string the
sources and the specification exercise.
-/

namespace FitnessPipeline

set_option maxRecDepth 100000

/-! ### Python string primitives -/

/-- Python `\w` (ASCII): letters, digits, underscore. -/
def isWordChar (c : Char) : Bool := c.isAlphanum || c == '_'

/-- The whitespace set of Python `str.strip()`. -/
def py_isspace (c : Char) : Bool :=
  c == ' ' || c == '\t' || c == '\n' || c == '\r' || c == '\x0b' || c == '\x0c'

/-- Python `str.strip()` on a character list. -/
def py_strip_chars (l : List Char) : List Char :=
  ((l.dropWhile py_isspace).reverse.dropWhile py_isspace).reverse

/-- Python `str.strip()`. -/
def py_strip (s : String) : String := ⟨py_strip_chars s.data⟩

/-- Python `str.rstrip('/')`. -/
def py_rstrip_slash (s : String) : String :=
  ⟨(s.data.reverse.dropWhile (· == '/')).reverse⟩

/-- Python `str.lower()` (ASCII case mapping, as used on the transcripts). -/
def py_lower (s : String) : String := ⟨s.data.map Char.toLower⟩

/-- Python `str.split('\n')`. -/
def py_split_nl : List Char → List (List Char)
  | [] => [[]]
  | c :: cs =>
    if c == '\n' then [] :: py_split_nl cs
    else
      match py_split_nl cs with
      | [] => [[c]]
      | l :: ls => (c :: l) :: ls

/-- Python `sep.join(texts)`. -/
def py_join (sep : String) : List String → String
  | [] => ""
  | [t] => t
  | t :: ts => t ++ sep ++ py_join sep ts

/-- Case-sensitive literal prefix match, returning the remainder. -/
def dropPrefixCS : List Char → List Char → Option (List Char)
  | [], rest => some rest
  | _ :: _, [] => none
  | k :: ks, c :: cs => if k == c then dropPrefixCS ks cs else none

/-- Python `str.startswith(pat)`. -/
def py_startswith (pat : String) (s : String) : Bool :=
  (dropPrefixCS pat.data s.data).isSome

/-- Python `str.replace(pat, '')` (remove every occurrence of `pat`,
scanning left to right, non-overlapping).  The counter argument skips the
remaining characters of an occurrence already recognised. -/
def removeAllAux (pat : List Char) : Nat → List Char → List Char
  | _ + 1, [] => []
  | skip + 1, _ :: cs => removeAllAux pat skip cs
  | 0, [] => []
  | 0, c :: cs =>
    if pat ≠ [] && (dropPrefixCS pat (c :: cs)).isSome then
      removeAllAux pat (pat.length - 1) cs
    else
      c :: removeAllAux pat 0 cs

/-- Python `str.replace(pat, '')`. -/
def py_remove (pat : String) (s : String) : String :=
  ⟨removeAllAux pat.data 0 s.data⟩

/-- Python `str.find(pat)` (index of the first occurrence), as an `Option`. -/
def findSub (pat : List Char) : List Char → Option Nat
  | [] => if (dropPrefixCS pat []).isSome then some 0 else none
  | c :: cs =>
    if (dropPrefixCS pat (c :: cs)).isSome then some 0
    else (findSub pat cs).map (· + 1)

/-! ### Keyword scorer: `calculate_fitness_score` (filter_fitness_videos.py) -/

/-- Case-insensitive character comparison (`re.IGNORECASE`). -/
def charEqCI (a b : Char) : Bool := a.toLower == b.toLower

/-- Case-insensitive literal match of the keyword against the start of the
text, returning the remainder. -/
def consumeCI : List Char → List Char → Option (List Char)
  | [], rest => some rest
  | _ :: _, [] => none
  | k :: ks, c :: cs => if charEqCI k c then consumeCI ks cs else none

/-- The `\b` word-boundary test on the left of a candidate match:
the previous character (if any) is not a word character. -/
def boundaryOkL : Option Char → Bool
  | none => true
  | some c => !(isWordChar c)

/-- The `\b` word-boundary test on the right of a candidate match:
the following character (if any) is not a word character. -/
def boundaryOkR : List Char → Bool
  | [] => true
  | c :: _ => !(isWordChar c)

/-- Does `\b kw \b` match (case-insensitively) at the start of `text`,
given the character `prev` just before it? -/
def matchHere (kw text : List Char) (prev : Option Char) : Bool :=
  boundaryOkL prev &&
    (match consumeCI kw text with
     | some rest => boundaryOkR rest
     | none => false)

/-- Match count of the word-boundary keyword pattern under IGNORECASE
(line 91): a left-to-right, non-overlapping scan.  The counter argument skips the
remaining characters of a match already counted, so the scan resumes right
after each match, exactly as `re.findall` does. -/
def scanKw (kw : List Char) : Nat → Option Char → List Char → Nat
  | _, _, [] => 0
  | skip + 1, _, c :: cs => scanKw kw skip (some c) cs
  | 0, prev, c :: cs =>
    if kw ≠ [] && matchHere kw (c :: cs) prev then
      1 + scanKw kw (kw.length - 1) (some c) cs
    else
      scanKw kw 0 (some c) cs

/-- Number of whole-word, case-insensitive occurrences of keyword `kw` in
`text` (the count of line 91 of filter_fitness_videos.py). -/
def countKeyword (kw text : String) : Nat := scanKw kw.data 0 none text.data

/-- The `FITNESS_KEYWORDS` vocabulary, in source order.  The Python source stores them in a
`set`; iteration order of that set is not fixed across interpreter runs, so
every function that scans the keywords is parametrised by an enumeration
order below, with this list as the reference enumeration. -/
def FITNESS_KEYWORDS : List String :=
  ["workout", "exercise", "training", "fitness", "gym",
   "muscle", "chest", "back", "legs", "arms", "shoulders",
   "biceps", "triceps", "abs", "core", "glutes", "hamstrings",
   "quadriceps", "calves", "lats", "delts", "pecs",
   "squat", "deadlift", "bench press", "push up", "pull up",
   "curl", "press", "row", "lunge", "plank", "crunch",
   "burpee", "jump", "sprint", "cardio", "hiit",
   "dumbbell", "barbell", "kettlebell", "weight", "resistance",
   "cable", "machine", "bodyweight", "calisthenics",
   "reps", "sets", "repetitions", "strength", "hypertrophy",
   "endurance", "conditioning", "mobility", "flexibility",
   "stretching", "recovery", "rest day", "progressive overload",
   "muscle gain", "fat loss", "cutting", "bulking", "lean",
   "body composition", "physique", "shredded", "jacked",
   "powerlifting", "bodybuilding", "crossfit", "olympic lifting",
   "martial arts", "boxing", "mma", "wrestling", "jiu jitsu",
   "yoga", "pilates", "running", "cycling", "swimming",
   "nutrition", "protein", "calories", "diet", "supplements",
   "performance", "athletic", "athlete", "sports"]

/-- One iteration of the keyword loop of lines 90–94: count the
whole-word matches, record it in the match map when the count is positive,
and accumulate the total. -/
def scoreStep (text : String) (acc : Nat × List (String × Nat))
    (kw : String) : Nat × List (String × Nat) :=
  let count := countKeyword kw text
  if 0 < count then (acc.1 + count, acc.2 ++ [(kw, count)]) else acc

/-- The function `calculate_fitness_score`, over a given keyword
enumeration order. -/
def calculate_fitness_score_with (kws : List String) (text : String) :
    Nat × List (String × Nat) :=
  kws.foldl (scoreStep text) (0, [])

/-- The function `calculate_fitness_score` at the reference keyword
order. -/
def calculate_fitness_score (text : String) : Nat × List (String × Nat) :=
  calculate_fitness_score_with FITNESS_KEYWORDS text

/-! ### Transcript loading and ranking (filter_fitness_videos.py) -/

/-- The record returned by `load_transcript`. -/
structure TranscriptRec where
  video_id : String
  url : String
  text : String
  filename : String
  deriving Repr, DecidableEq

/-- The 80-character separator line written by the batch runner and scanned
for by the scorer. -/
def separator80 : String := ⟨List.replicate 80 '='⟩

/-- The function `load_transcript`, as a function of the file name and
its contents: scan
the first 10 lines for the `Video ID:` and `URL:` headers, and lowercase
everything from the first 80-`=` separator on (the whole contents when no
separator is present).  The Python `try` only guards file I/O, which the
embedding receives as an argument, so no failure case remains. -/
def load_transcript (filename content : String) : TranscriptRec :=
  let lines := (py_split_nl content.data).map (fun l => (⟨l⟩ : String))
  let meta :=
    (lines.take 10).foldl
      (fun (acc : String × String) line =>
        if py_startswith "Video ID:" line then
          (py_strip (py_remove "Video ID:" line), acc.2)
        else if py_startswith "URL:" line then
          (acc.1, py_strip (py_remove "URL:" line))
        else acc)
      ("", "")
  let text :=
    match findSub separator80.data content.data with
    | some idx => py_lower ⟨content.data.drop idx⟩
    | none => py_lower content
  ⟨meta.1, meta.2, text, filename⟩

/-- Stable insertion into a list sorted descending by `key`: the new element
goes in front of the first element whose key is at most its own, so elements
inserted earlier stay in front of later elements with an equal key.  This is
the order of the stable Python `sort(key=..., reverse=True)`. -/
def insertDescBy (key : α → Nat) (e : α) : List α → List α
  | [] => [e]
  | a :: l => if key a ≤ key e then e :: a :: l else a :: insertDescBy key e l

/-- Stable descending sort by `key` (Python `list.sort(key=..., reverse=True)`
up to the stable-sort uniqueness property). -/
def sortDescBy (key : α → Nat) : List α → List α
  | [] => []
  | x :: xs => insertDescBy key x (sortDescBy key xs)

/-- The `FitnessScoreEntry` of the specification (the dict built at lines
131–137 of filter_fitness_videos.py). -/
structure FitnessEntry where
  video_id : String
  url : String
  filename : String
  fitness_score : Nat
  top_keywords : List (String × Nat)
  deriving Repr, DecidableEq

/-- The entry built for one loaded transcript when its score reaches the
threshold (`None` otherwise), over a given keyword enumeration order. -/
def mkEntry (kws : List String) (min_score : Nat) (t : TranscriptRec) :
    Option FitnessEntry :=
  let sm := calculate_fitness_score_with kws t.text
  if min_score ≤ sm.1 then
    some ⟨t.video_id, t.url, t.filename, sm.1,
          (sortDescBy Prod.snd sm.2).take 10⟩
  else none

/-- The function `find_fitness_videos`, as a function of the directory
listing: the
`(filename, contents)` pairs of the `*.txt` files, in listing order, and the
minimum score.  Each file is loaded, scored, kept when the score reaches the
threshold, and the kept entries are sorted descending by score. -/
def find_fitness_videos_with (kws : List String)
    (files : List (String × String)) (min_score : Nat) : List FitnessEntry :=
  sortDescBy FitnessEntry.fitness_score
    ((files.map (fun p => load_transcript p.1 p.2)).filterMap
      (mkEntry kws min_score))

/-- The function `find_fitness_videos` at the reference keyword order. -/
def find_fitness_videos (files : List (String × String)) (min_score : Nat) :
    List FitnessEntry :=
  find_fitness_videos_with FITNESS_KEYWORDS files min_score

/-! ### Transcript fetcher (fetch_transcripts_ytdlp.py) -/

/-- A parsed json3 segment: its optional `utf8` field. -/
structure Seg where
  utf8 : Option String
  deriving Repr, DecidableEq

/-- A parsed json3 event: its optional `segs` collection. -/
structure Event where
  segs : Option (List Seg)
  deriving Repr, DecidableEq

/-- A parsed json3 body: its optional top-level `events` collection. -/
structure SubData where
  events : Option (List Event)
  deriving Repr, DecidableEq

/-- The inner loop of lines 62–64: append the `utf8` field of a segment
when present. -/
def segStep (acc : List String) (seg : Seg) : List String :=
  match seg.utf8 with
  | some t => acc ++ [t]
  | none => acc

/-- The outer loop of lines 60–64: walk the `segs` of an event when
present. -/
def eventStep (acc : List String) (ev : Event) : List String :=
  match ev.segs with
  | some segs => segs.foldl segStep acc
  | none => acc

/-- The nested extraction loops of lines 59–64: collect the `utf8` field of
every segment of every event that has a `segs` collection, in order. -/
def collect_texts (evs : List Event) : List String :=
  evs.foldl eventStep []

/-- Modelled from the spec: "for each event extract any `segs`
sub-collection, and for each segment extract its `utf8` text field if
present" — every `utf8` field of every segment in the `segs`
sub-collection, in order. -/
def spec_fragments (evs : List Event) : List String :=
  ((evs.filterMap Event.segs).flatten).filterMap Seg.utf8

/-- Space-join of the collected fragments followed by a strip (line 66
of fetch_transcripts_ytdlp.py). -/
def extract_full_text (evs : List Event) : String :=
  py_strip (py_join " " (collect_texts evs))

/-- The text the fetcher extracts from one parsed subtitle body: present
exactly when the body has a top-level `events` collection. -/
def subtitle_text (d : SubData) : Option String :=
  match d.events with
  | some evs => some (extract_full_text evs)
  | none => none

/-- Result type of `fetch_transcript_ytdlp` (the returned dicts). -/
inductive FetchResult where
  | success (text : String) (language : String) (method : String)
  | failure (error : String)
  deriving Repr, DecidableEq

/-- The candidate subtitle files of lines 46–50, in probe order: plain
English, then en-US, then en-GB. -/
def subtitle_files (video_id : String) : List String :=
  ["/tmp/yt_transcript_" ++ video_id ++ ".en.json3",
   "/tmp/yt_transcript_" ++ video_id ++ ".en-US.json3",
   "/tmp/yt_transcript_" ++ video_id ++ ".en-GB.json3"]

/-- The probe loop of lines 52–78: the file system is abstracted as a map
from path to the parsed body of an existing file (`none` = the file does not
exist).  A file that exists but has no `events` key produces no `return`, so
the loop moves on to the next candidate; when no candidate produces a text
the function returns the `No subtitles found` failure. -/
def try_subtitle_files (fs : String → Option SubData) :
    List String → FetchResult
  | [] => .failure "No subtitles found"
  | f :: rest =>
    match fs f with
    | none => try_subtitle_files fs rest
    | some d =>
      match subtitle_text d with
      | some text => .success text "en" "yt-dlp"
      | none => try_subtitle_files fs rest

/-- The function `fetch_transcript_ytdlp`, from the point after the
subprocess call, as a
function of the file-system contents. -/
def fetch_transcript_ytdlp (fs : String → Option SubData)
    (video_id : String) : FetchResult :=
  try_subtitle_files fs (subtitle_files video_id)

/-! ### Channel enumerator (extract_channel_videos.py) -/

/-- The dict appended at lines 67–71. -/
structure VideoRecord where
  video_id : String
  title : String
  url : String
  deriving Repr, DecidableEq

/-- Does the line contain a pipe character? -/
def contains_pipe (l : String) : Bool := l.data.any (· == '|')

/-- Split of the line at its first pipe (the line is known to contain
one), followed by the record construction of lines 66–71: both the id
field and the derived watch URL use the stripped id. -/
def line_to_record (l : String) : VideoRecord :=
  let vid := py_strip ⟨l.data.takeWhile (· != '|')⟩
  let title := py_strip ⟨(l.data.dropWhile (· != '|')).tail⟩
  ⟨vid, title, "https://www.youtube.com/watch?v=" ++ vid⟩

/-- The stdout parsing loop of lines 63–72: strip the stdout, split it on
newlines, skip lines without a pipe, and turn each remaining line into a
record. -/
def parse_stdout (stdout : String) : List VideoRecord :=
  ((py_split_nl (py_strip stdout).data).map (fun l => (⟨l⟩ : String))).foldl
    (fun acc line =>
      if contains_pipe line then acc ++ [line_to_record line] else acc)
    []

/-- Outcome of the `subprocess.run` call, as seen by the enumerator:
a completed process with its exit code and captured streams, the
`TimeoutExpired` exception, or any other exception with its message. -/
inductive ProcOutcome where
  | completed (returncode : Int) (stdout stderr : String)
  | timedOut
  | raised (msg : String)
  deriving Repr, DecidableEq

/-- Result type of `fetch_channel_videos`. -/
inductive ChannelFetchResult where
  | success (videos : List VideoRecord)
  | failure (error : String)
  deriving Repr, DecidableEq

/-- The function `fetch_channel_videos`, as a function of the subprocess
outcome: a
non-zero exit code returns the captured stderr verbatim; `TimeoutExpired`
returns `Timeout`; any other exception is converted to a failure by the
generic `except` clause.  Every path ends in a returned value, so nothing
escapes the boundary of the function. -/
def fetch_channel_videos (p : ProcOutcome) : ChannelFetchResult :=
  match p with
  | .completed rc out err =>
    if rc != 0 then .failure err else .success (parse_stdout out)
  | .timedOut => .failure "Timeout"
  | .raised msg => .failure msg

/-! ### Batch runner (fetch_transcripts_ytdlp.py, `process_videos`) -/

/-- Search for a pattern of the shape literal-then-negated-class-capture:
scan the text
left to right for the first position where the literal matches and at least
one non-excluded character follows, and return the greedy capture. -/
def scanLitCapture (lit : List Char) (excl : Char → Bool) :
    List Char → Option (List Char)
  | [] => none
  | c :: cs =>
    match dropPrefixCS lit (c :: cs) with
    | some (r :: rs) =>
      if excl r then scanLitCapture lit excl cs
      else some ((r :: rs).takeWhile (fun x => !excl x))
    | some [] => scanLitCapture lit excl cs
    | none => scanLitCapture lit excl cs

/-- The function `extract_video_id`: try the watch pattern (literal
followed by a non-empty run of non-ampersand characters) first, then the
shorts pattern (literal followed by a non-empty run of characters that are
neither ampersand nor question mark). -/
def extract_video_id (url : String) : Option String :=
  match scanLitCapture "youtube.com/watch?v=".data (· == '&') url.data with
  | some v => some ⟨v⟩
  | none =>
    (scanLitCapture "youtube.com/shorts/".data
      (fun c => c == '&' || c == '?') url.data).map (fun v => (⟨v⟩ : String))

/-- The `failed.append` records of `process_videos`. -/
structure FailureRecord where
  url : String
  video_id : Option String
  error : String
  deriving Repr, DecidableEq

/-- The observable state accumulated by the `process_videos` loop: the saved
transcripts (video id, text), the failure records, and the number of times
`time.sleep(delay)` ran. -/
structure BatchState where
  successes : List (String × String)
  failed : List FailureRecord
  sleeps : Nat
  deriving Repr, DecidableEq

/-- The loop of lines 102–133, with `i` the 1-based index of the current
item and `total` the item count.  An unparseable URL appends a failure and
`continue`s — which jumps past the `if i < total: time.sleep(delay)` at the
bottom of the loop body — while fetch successes and fetch failures both
fall through to the sleep. -/
def runBatch (fetch : String → String → FetchResult) (total : Nat) :
    Nat → List String → BatchState → BatchState
  | _, [], st => st
  | i, url :: rest, st =>
    match extract_video_id url with
    | none =>
      runBatch fetch total (i + 1) rest
        { st with failed := st.failed ++ [⟨url, none, "Invalid URL"⟩] }
    | some vid =>
      let st1 :=
        match fetch vid url with
        | .success text _ _ =>
          { st with successes := st.successes ++ [(vid, text)] }
        | .failure e =>
          { st with failed := st.failed ++ [⟨url, some vid, e⟩] }
      let st2 := if i < total then { st1 with sleeps := st1.sleeps + 1 } else st1
      runBatch fetch total (i + 1) rest st2

/-- The `process_videos` loop over a URL list (the non-blank stripped input
lines), with the per-item fetch abstracted as a function. -/
def process_videos (fetch : String → String → FetchResult)
    (urls : List String) : BatchState :=
  runBatch fetch urls.length 1 urls ⟨[], [], 0⟩

/-- The `success_count/total*100` expression of the summary (line 146):
Python raises `ZeroDivisionError` when `total` is zero, so the value is
partial. -/
def success_rate (success_count total : Nat) : Option ℚ :=
  if total = 0 then none else some ((success_count : ℚ) / total * 100)

/-- A whole `process_videos` run: the loop followed by the summary print.
The result is `none` exactly when printing the summary raises (the division
by zero on an empty batch); otherwise it carries the final state and the
printed success rate. -/
def process_videos_run (fetch : String → String → FetchResult)
    (urls : List String) : Option (BatchState × ℚ) :=
  let st := process_videos fetch urls
  (success_rate st.successes.length urls.length).map (fun r => (st, r))

/-! ### URL extractor (extract_youtube_urls.py, extract_channel_videos.py) -/

/-- The character class of the two video-URL patterns: word characters
and dash. -/
def wordDash (c : Char) : Bool := isWordChar c || c == '-'

/-- The character class of the channel-URL pattern: word characters,
dash and dot. -/
def channelChar (c : Char) : Bool := isWordChar c || c == '-' || c == '.'

/-- Match `https?://(?:www\.)?` followed by the literal `tail_lit` and a
non-empty greedy `allowed`-class run, at the start of `l`; return the full
match.  The optional parts are resolved greedily, which coincides with the
backtracking regex semantics for these patterns: consuming `s` or `www.`
can only fail when skipping them fails as well. -/
def matchHttpUrlAt (tail_lit : List Char) (allowed : Char → Bool)
    (l : List Char) : Option (List Char) :=
  match dropPrefixCS "http".data l with
  | none => none
  | some r1 =>
    let sp : List Char × List Char :=
      match r1 with
      | 's' :: rest => (['s'], rest)
      | _ => ([], r1)
    match dropPrefixCS "://".data sp.2 with
    | none => none
    | some r3 =>
      let wp : List Char × List Char :=
        match dropPrefixCS "www.".data r3 with
        | some rest => ("www.".data, rest)
        | none => ([], r3)
      match dropPrefixCS tail_lit wp.2 with
      | none => none
      | some (c :: cs) =>
        if allowed c then
          some ("http".data ++ sp.1 ++ "://".data ++ wp.1 ++ tail_lit ++
                (c :: cs).takeWhile allowed)
        else none
      | some [] => none

/-- All matches (findall) of one video-URL pattern: left-to-right,
non-overlapping;
after a match the scan resumes past it (the counter skips the characters of
a match already emitted). -/
def findAllUrlsAux (tail_lit : List Char) (allowed : Char → Bool) :
    Nat → List Char → List String
  | _, [] => []
  | skip + 1, _ :: cs => findAllUrlsAux tail_lit allowed skip cs
  | 0, c :: cs =>
    match matchHttpUrlAt tail_lit allowed (c :: cs) with
    | some m => (⟨m⟩ : String) :: findAllUrlsAux tail_lit allowed (m.length - 1) cs
    | none => findAllUrlsAux tail_lit allowed 0 cs

/-- All matches of one video-URL pattern in the content. -/
def findAllUrls (tail_lit : String) (allowed : Char → Bool)
    (content : String) : List String :=
  findAllUrlsAux tail_lit.data allowed 0 content.data

/-- All matches (findall) of the channel pattern: `lit` followed by a
non-empty `allowed` run (no optional parts), left-to-right,
non-overlapping. -/
def findAllLitAux (lit : List Char) (allowed : Char → Bool) :
    Nat → List Char → List String
  | _, [] => []
  | skip + 1, _ :: cs => findAllLitAux lit allowed skip cs
  | 0, c :: cs =>
    match dropPrefixCS lit (c :: cs) with
    | some (r :: rs) =>
      if allowed r then
        let m := lit ++ (r :: rs).takeWhile allowed
        (⟨m⟩ : String) :: findAllLitAux lit allowed (m.length - 1) cs
      else findAllLitAux lit allowed 0 cs
    | some [] => findAllLitAux lit allowed 0 cs
    | none => findAllLitAux lit allowed 0 cs

/-- One iteration of the deduplication loop of both extractors: clean the
URL, skip it when already seen, append it otherwise.  The Python `seen` set
always holds exactly the elements of the output list, so membership in the
output list models membership in the set. -/
def dedupStep (clean : String → String) (out : List String) (url : String) :
    List String :=
  let c := clean url
  if c ∈ out then out else out ++ [c]

/-- The seen-set deduplication loop of both extractors. -/
def dedup_clean_fold (clean : String → String) (urls : List String) :
    List String :=
  urls.foldl (dedupStep clean) []

/-- The prefix of the URL before its first ampersand, or the whole URL
when it has none (line 31 of extract_youtube_urls.py). -/
def clean_url (u : String) : String := ⟨u.data.takeWhile (· != '&')⟩

/-- `extract_youtube_videos`, as a function of the file contents: all
matches of the watch pattern, then all matches of the shorts pattern (the
source loops over the patterns, extending one list), then the cleaning
deduplication. -/
def extract_youtube_videos (content : String) : List String :=
  dedup_clean_fold clean_url
    (findAllUrls "youtube.com/watch?v=" wordDash content ++
     findAllUrls "youtube.com/shorts/" wordDash content)

/-- `extract_channel_urls`, as a function of the file contents. -/
def extract_channel_urls (content : String) : List String :=
  dedup_clean_fold py_rstrip_slash
    (findAllLitAux "https://www.youtube.com/@".data channelChar 0 content.data)

/-- Modelled from the spec: "deduplicates preserving first-seen order" /
"lists the unique (normalized) URLs in the order of their first occurrence".
The canonical first-occurrence deduplication: keep the head, remove its
later duplicates, recurse. -/
def first_occurrence_dedup : List String → List String
  | [] => []
  | u :: rest => u :: first_occurrence_dedup (rest.filter (· ≠ u))
termination_by l => l.length
decreasing_by
  simp only [List.length_cons]
  exact Nat.lt_succ_of_le (List.length_filter_le _ _)

/-! ### Concrete example inputs used by the claims -/

/-- The keyword list with the adjacent entries `squat` and `deadlift`
swapped: another enumeration order of the same keyword set, as a Python
`set` may produce on another interpreter run. -/
def FITNESS_KEYWORDS_ALT : List String :=
  ["workout", "exercise", "training", "fitness", "gym",
   "muscle", "chest", "back", "legs", "arms", "shoulders",
   "biceps", "triceps", "abs", "core", "glutes", "hamstrings",
   "quadriceps", "calves", "lats", "delts", "pecs",
   "deadlift", "squat", "bench press", "push up", "pull up",
   "curl", "press", "row", "lunge", "plank", "crunch",
   "burpee", "jump", "sprint", "cardio", "hiit",
   "dumbbell", "barbell", "kettlebell", "weight", "resistance",
   "cable", "machine", "bodyweight", "calisthenics",
   "reps", "sets", "repetitions", "strength", "hypertrophy",
   "endurance", "conditioning", "mobility", "flexibility",
   "stretching", "recovery", "rest day", "progressive overload",
   "muscle gain", "fat loss", "cutting", "bulking", "lean",
   "body composition", "physique", "shredded", "jacked",
   "powerlifting", "bodybuilding", "crossfit", "olympic lifting",
   "martial arts", "boxing", "mma", "wrestling", "jiu jitsu",
   "yoga", "pilates", "running", "cycling", "swimming",
   "nutrition", "protein", "calories", "diet", "supplements",
   "performance", "athletic", "athlete", "sports"]

/-- A transcript artifact containing `squat` 3 times and `deadlift` 2
times, in the per-item format written by the batch runner. -/
def exContent : String :=
  "Video ID: vid1\nURL: http://u\nLanguage: en\nMethod: yt-dlp\n\n" ++
  separator80 ++ "\n\nsquat squat squat deadlift deadlift"

/-- The entry the scorer produces for `exContent` at threshold 5. -/
def exEntry5 : FitnessEntry :=
  ⟨"vid1", "http://u", "vid1.txt", 5, [("squat", 3), ("deadlift", 2)]⟩

/-- A transcript artifact with tied counts: `squat` 3 times and `deadlift`
3 times. -/
def tieContent : String :=
  "Video ID: vid2\nURL: http://u2\n\n" ++ separator80 ++
  "\n\nsquat squat squat deadlift deadlift deadlift"

/-- The parsed `{"events":[{"segs":[{"utf8":"hello"},{"utf8":"world"}]}]}`
body of the Fetcher example in the specification. -/
def exSub3 : SubData := ⟨some [⟨some [⟨some "hello"⟩, ⟨some "world"⟩]⟩]⟩

/-- A file system where only the plain-English candidate for `vid1` exists
and holds `exSub3`. -/
def exFs3 : String → Option SubData :=
  fun f => if f == "/tmp/yt_transcript_vid1.en.json3" then some exSub3 else none

/-- A file system where the plain-English candidate for `v` exists but its
body has no `events` key, the en-US candidate exists with a body yielding
the text `hi`, and the en-GB candidate does not exist. -/
def exFs4 : String → Option SubData := fun f =>
  if f == "/tmp/yt_transcript_v.en.json3" then some ⟨none⟩
  else if f == "/tmp/yt_transcript_v.en-US.json3" then
    some ⟨some [⟨some [⟨some "hi"⟩]⟩]⟩
  else none

/-- A file system where the plain-English candidate for `v` exists with an
events-less body, the en-US candidate does not exist, and the en-GB
candidate exists with a body yielding the text `gb`. -/
def exFsGB : String → Option SubData := fun f =>
  if f == "/tmp/yt_transcript_v.en.json3" then some ⟨none⟩
  else if f == "/tmp/yt_transcript_v.en-GB.json3" then
    some ⟨some [⟨some [⟨some "gb"⟩]⟩]⟩
  else none

/-- A fetch oracle that always succeeds. -/
def fetchAllOk : String → String → FetchResult :=
  fun _ _ => .success "transcript" "en" "yt-dlp"

/-- A fetch oracle that fails for video id `bbb` and succeeds otherwise. -/
def fetchFailSecond : String → String → FetchResult :=
  fun vid _ =>
    if vid == "bbb" then .failure "No subtitles found"
    else .success "transcript" "en" "yt-dlp"

/-- A 3-item batch whose second item is an unparseable URL. -/
def urlsInvalidSecond : List String :=
  ["https://www.youtube.com/watch?v=aaa", "not a url",
   "https://www.youtube.com/watch?v=ccc"]

/-- A 3-item batch of valid URLs whose second item `bbb` will fail at the
fetch step under `fetchFailSecond`. -/
def urlsFetchFailSecond : List String :=
  ["https://www.youtube.com/watch?v=aaa", "https://www.youtube.com/watch?v=bbb",
   "https://www.youtube.com/watch?v=ccc"]

/-- An input text in which a short-form video URL occurs before a full
video URL. -/
def mixedOrderText : String :=
  "https://www.youtube.com/shorts/AAA https://www.youtube.com/watch?v=BBB"

/-! ### Lemmas about the scorer -/

theorem foldl_append_filter_map {α β : Type} (p : α → Bool) (f : α → β) :
    ∀ (l : List α) (acc : List β),
      l.foldl (fun acc x => if p x then acc ++ [f x] else acc) acc
        = acc ++ (l.filter p).map f
  | [], acc => by simp
  | x :: l, acc => by
    by_cases h : p x <;>
      simp [h, List.filter_cons, foldl_append_filter_map p f l, List.append_assoc]

theorem scoreStep_foldl (t : String) :
    ∀ (kws : List String) (acc : Nat × List (String × Nat)),
      kws.foldl (scoreStep t) acc
        = (acc.1 + (kws.map (fun kw => countKeyword kw t)).sum,
           acc.2 ++ kws.filterMap (fun kw =>
             if 0 < countKeyword kw t then some (kw, countKeyword kw t)
             else none))
  | [], acc => by simp
  | kw :: kws, acc => by
    simp only [List.foldl_cons, List.map_cons, List.sum_cons,
      List.filterMap_cons]
    by_cases h : 0 < countKeyword kw t
    · simp only [scoreStep, h, if_pos, scoreStep_foldl t kws]
      simp [Nat.add_assoc, Nat.add_comm (countKeyword kw t)]
    · have h0 : countKeyword kw t = 0 := Nat.eq_zero_of_not_pos h
      simp only [scoreStep, h, if_neg, if_false, scoreStep_foldl t kws, h0]
      simp

/-- The total of `calculate_fitness_score` is the sum, over the keyword
enumeration, of the whole-word match counts. -/
theorem calc_fst_eq_sum (kws : List String) (t : String) :
    (calculate_fitness_score_with kws t).1
      = (kws.map (fun kw => countKeyword kw t)).sum := by
  simp [calculate_fitness_score_with, scoreStep_foldl]

/-- The match map of `calculate_fitness_score` keeps, in enumeration order,
exactly the keywords with a positive count, paired with their counts. -/
theorem calc_snd_eq_filterMap (kws : List String) (t : String) :
    (calculate_fitness_score_with kws t).2
      = kws.filterMap (fun kw =>
          if 0 < countKeyword kw t then some (kw, countKeyword kw t)
          else none) := by
  simp [calculate_fitness_score_with, scoreStep_foldl]

/-! ### Lemmas about the stable descending sort -/

theorem insertDescBy_perm {α : Type} (key : α → Nat) (e : α) :
    ∀ l : List α, (insertDescBy key e l).Perm (e :: l)
  | [] => List.Perm.refl _
  | a :: l => by
    simp only [insertDescBy]
    by_cases h : key a ≤ key e
    · simp [h]
    · simp only [h, if_neg, if_false]
      exact ((insertDescBy_perm key e l).cons a).trans (List.Perm.swap e a l)

theorem sortDescBy_perm {α : Type} (key : α → Nat) :
    ∀ l : List α, (sortDescBy key l).Perm l
  | [] => List.Perm.refl _
  | x :: xs =>
    (insertDescBy_perm key x (sortDescBy key xs)).trans
      ((sortDescBy_perm key xs).cons x)

theorem mem_insertDescBy {α : Type} (key : α → Nat) (e : α) (l : List α)
    (x : α) : x ∈ insertDescBy key e l ↔ x = e ∨ x ∈ l := by
  constructor
  · intro hx
    have := (insertDescBy_perm key e l).mem_iff.mp hx
    simpa using this
  · intro hx
    apply (insertDescBy_perm key e l).mem_iff.mpr
    simpa using hx

theorem insertDescBy_sorted {α : Type} (key : α → Nat) (e : α) :
    ∀ l : List α, l.Pairwise (fun a b => key b ≤ key a) →
      (insertDescBy key e l).Pairwise (fun a b => key b ≤ key a)
  | [], _ => by simp [insertDescBy]
  | a :: l, h => by
    rcases List.pairwise_cons.mp h with ⟨ha, hl⟩
    simp only [insertDescBy]
    by_cases hk : key a ≤ key e
    · rw [if_pos hk]
      refine List.pairwise_cons.mpr ⟨?_, h⟩
      intro b hb
      rcases List.mem_cons.mp hb with rfl | hb
      · exact hk
      · exact le_trans (ha b hb) hk
    · rw [if_neg hk]
      refine List.pairwise_cons.mpr ⟨?_, insertDescBy_sorted key e l hl⟩
      intro b hb
      rcases (mem_insertDescBy key e l b).mp hb with rfl | hb
      · exact le_of_lt (Nat.lt_of_not_le hk)
      · exact ha b hb

theorem sortDescBy_sorted {α : Type} (key : α → Nat) :
    ∀ l : List α, (sortDescBy key l).Pairwise (fun a b => key b ≤ key a)
  | [] => List.Pairwise.nil
  | x :: xs => insertDescBy_sorted key x _ (sortDescBy_sorted key xs)

theorem mem_sortDescBy {α : Type} (key : α → Nat) (l : List α) (x : α) :
    x ∈ sortDescBy key l ↔ x ∈ l :=
  (sortDescBy_perm key l).mem_iff

/-! ### Lemmas about qualification -/

theorem mkEntry_qualifies (kws : List String) (ms : Nat) (t : TranscriptRec)
    (e : FitnessEntry) (h : mkEntry kws ms t = some e) :
    ms ≤ e.fitness_score
      ∧ e.fitness_score = (calculate_fitness_score_with kws t.text).1 := by
  unfold mkEntry at h
  by_cases hle : ms ≤ (calculate_fitness_score_with kws t.text).1
  · rw [if_pos hle] at h
    cases h
    exact ⟨hle, rfl⟩
  · rw [if_neg hle] at h
    cases h

theorem mkEntry_total (kws : List String) (ms : Nat) (t : TranscriptRec)
    (h : ms ≤ (calculate_fitness_score_with kws t.text).1) :
    mkEntry kws ms t
      = some ⟨t.video_id, t.url, t.filename,
              (calculate_fitness_score_with kws t.text).1,
              (sortDescBy Prod.snd (calculate_fitness_score_with kws t.text).2).take 10⟩ := by
  unfold mkEntry
  rw [if_pos h]

theorem mem_find_fitness_videos_with (kws : List String)
    (files : List (String × String)) (ms : Nat) (e : FitnessEntry) :
    e ∈ find_fitness_videos_with kws files ms
      ↔ ∃ p ∈ files, mkEntry kws ms (load_transcript p.1 p.2) = some e := by
  unfold find_fitness_videos_with
  rw [mem_sortDescBy]
  simp only [List.mem_filterMap, List.mem_map]
  constructor
  · rintro ⟨t, ⟨p, hp, rfl⟩, hmk⟩
    exact ⟨p, hp, hmk⟩
  · rintro ⟨p, hp, hmk⟩
    exact ⟨load_transcript p.1 p.2, ⟨p, hp, rfl⟩, hmk⟩

/-! ### Lemmas about the fetcher extraction -/

theorem segStep_foldl :
    ∀ (segs : List Seg) (acc : List String),
      segs.foldl segStep acc = acc ++ segs.filterMap Seg.utf8
  | [], acc => by simp
  | s :: segs, acc => by
    cases h : s.utf8 <;>
      simp [segStep, h, List.filterMap_cons, segStep_foldl segs,
        List.append_assoc]

theorem eventStep_foldl :
    ∀ (evs : List Event) (acc : List String),
      evs.foldl eventStep acc = acc ++ spec_fragments evs
  | [], acc => by simp [spec_fragments]
  | ev :: evs, acc => by
    cases h : ev.segs with
    | none =>
      simp [eventStep, h, eventStep_foldl evs, spec_fragments,
        List.filterMap_cons]
    | some segs =>
      simp [eventStep, h, segStep_foldl, eventStep_foldl evs, spec_fragments,
        List.filterMap_cons, List.append_assoc]

/-- The loop-accumulated fragment list equals the wording of the
description: every `utf8` field of every segment in the `segs`
sub-collection, in order. -/
theorem collect_texts_eq_spec (evs : List Event) :
    collect_texts evs = spec_fragments evs := by
  simp [collect_texts, eventStep_foldl]

/-! ### Lemmas about deduplication -/

theorem mem_of_mem_first_occurrence_dedup :
    ∀ (l : List String) (x : String), x ∈ first_occurrence_dedup l → x ∈ l := by
  intro l
  induction l using first_occurrence_dedup.induct with
  | case1 => intro x hx; simp [first_occurrence_dedup] at hx
  | case2 u rest ih =>
    intro x hx
    rw [first_occurrence_dedup] at hx
    rcases List.mem_cons.mp hx with rfl | hx
    · exact List.mem_cons_self _ _
    · exact List.mem_cons_of_mem _ (List.mem_of_mem_filter (ih x hx))

theorem nodup_first_occurrence_dedup :
    ∀ l : List String, (first_occurrence_dedup l).Nodup := by
  intro l
  induction l using first_occurrence_dedup.induct with
  | case1 => simp [first_occurrence_dedup]
  | case2 u rest ih =>
    rw [first_occurrence_dedup]
    refine List.nodup_cons.mpr ⟨?_, ih⟩
    intro hu
    have := List.of_mem_filter (mem_of_mem_first_occurrence_dedup _ _ hu)
    simp at this

theorem first_occurrence_dedup_nil : first_occurrence_dedup [] = [] := by
  rw [first_occurrence_dedup]

theorem first_occurrence_dedup_cons (u : String) (rest : List String) :
    first_occurrence_dedup (u :: rest)
      = u :: first_occurrence_dedup (rest.filter (· ≠ u)) := by
  rw [first_occurrence_dedup]

theorem dedupStep_foldl (clean : String → String) :
    ∀ (urls : List String) (out : List String),
      urls.foldl (dedupStep clean) out
        = out ++ first_occurrence_dedup
            ((urls.map clean).filter (fun c => decide (c ∉ out)))
  | [], out => by simp [first_occurrence_dedup_nil]
  | url :: urls, out => by
    simp only [List.foldl_cons, List.map_cons, List.filter_cons]
    by_cases h : clean url ∈ out
    · have hstep : dedupStep clean out url = out := by
        simp [dedupStep, h]
      rw [hstep, dedupStep_foldl clean urls out]
      simp [h]
    · have hstep : dedupStep clean out url = out ++ [clean url] := by
        simp [dedupStep, h]
      rw [hstep, dedupStep_foldl clean urls (out ++ [clean url])]
      have hfilter :
          (urls.map clean).filter (fun c => decide (c ∉ out ++ [clean url]))
            = ((urls.map clean).filter (fun c => decide (c ∉ out))).filter
                (fun c => decide (c ≠ clean url)) := by
        rw [List.filter_filter]
        apply List.filter_congr
        intro a _
        rw [show (decide (a ∉ out ++ [clean url]))
              = decide ((a ≠ clean url) ∧ (a ∉ out)) from
            decide_eq_decide.mpr (by simp [not_or, and_comm])]
        simp
      simp only [h, not_false_eq_true, decide_eq_true_eq, if_pos]
      rw [first_occurrence_dedup_cons, hfilter]
      simp [List.append_assoc]

/-- The seen-set loop computes exactly the first-occurrence deduplication of
the cleaned URL stream. -/
theorem dedup_clean_fold_eq (clean : String → String) (urls : List String) :
    dedup_clean_fold clean urls = first_occurrence_dedup (urls.map clean) := by
  unfold dedup_clean_fold
  rw [dedupStep_foldl]
  simp

/-! ### Lemmas about the batch runner -/

theorem runBatch_sleeps (fetch : String → String → FetchResult)
    (total : Nat) :
    ∀ (urls : List String) (i : Nat) (st : BatchState),
      (∀ u ∈ urls, extract_video_id u ≠ none) →
      i + urls.length = total + 1 →
      (runBatch fetch total i urls st).sleeps = st.sleeps + (urls.length - 1)
  | [], i, st, _, _ => by simp [runBatch]
  | url :: rest, i, st, hv, hi => by
    have hvid := hv url (List.mem_cons_self url rest)
    obtain ⟨vid, hvids⟩ := Option.ne_none_iff_exists'.mp hvid
    rw [runBatch, hvids]
    cases rest with
    | nil =>
      have hit : ¬ i < total := by
        simp only [List.length_cons, List.length_nil] at hi
        omega
      cases hfetch : fetch vid url <;>
        simp [hfetch, hit, runBatch]
    | cons r rs =>
      have hit : i < total := by
        simp only [List.length_cons] at hi
        omega
      have hrest : ∀ u ∈ r :: rs, extract_video_id u ≠ none := by
        intro u hu
        exact hv u (List.mem_cons_of_mem _ hu)
      have hlen : (i + 1) + (r :: rs).length = total + 1 := by
        simp only [List.length_cons] at hi ⊢
        omega
      cases hfetch : fetch vid url <;>
        · simp only [hfetch, hit, if_pos]
          rw [runBatch_sleeps fetch total (r :: rs) (i + 1) _ hrest hlen]
          simp only [List.length_cons]
          omega

/-! ### Symbolic-character lemmas for the keyword matcher -/

/-- A word character appended right after `squat` destroys the right word
boundary, so the embedded occurrence is not counted. -/
theorem countKeyword_append_wordchar (c : Char) (hc : isWordChar c = true) :
    countKeyword "squat" ⟨"squat".data ++ [c]⟩ = 0 := by
  have hcons :
      consumeCI ['s', 'q', 'u', 'a', 't'] ['s', 'q', 'u', 'a', 't', c]
        = some [c] := rfl
  have hm :
      matchHere ['s', 'q', 'u', 'a', 't'] ['s', 'q', 'u', 'a', 't', c] none
        = false := by
    simp [matchHere, hcons, boundaryOkR, hc]
  show scanKw ['s', 'q', 'u', 'a', 't'] 0 none ['s', 'q', 'u', 'a', 't', c] = 0
  rw [scanKw, if_neg (by simp [hm])]
  rfl

/-- A word character prepended right before `squat` destroys the left word
boundary, so the embedded occurrence is not counted. -/
theorem countKeyword_prepend_wordchar (c : Char) (hc : isWordChar c = true) :
    countKeyword "squat" ⟨c :: "squat".data⟩ = 0 := by
  have hcons :
      consumeCI ['s', 'q', 'u', 'a', 't'] [c, 's', 'q', 'u', 'a', 't']
        = none := by
    show (if charEqCI 's' c then
            consumeCI ['q', 'u', 'a', 't'] ['s', 'q', 'u', 'a', 't']
          else none) = none
    cases hb : charEqCI 's' c
    · simp [hb]
    · rw [if_pos rfl]
      rfl
  have hm :
      matchHere ['s', 'q', 'u', 'a', 't'] [c, 's', 'q', 'u', 'a', 't'] none
        = false := by
    simp [matchHere, hcons]
  have hb2 : boundaryOkL (some c) = false := by
    simp [boundaryOkL, hc]
  show scanKw ['s', 'q', 'u', 'a', 't'] 0 none [c, 's', 'q', 'u', 'a', 't'] = 0
  rw [scanKw, if_neg (by simp [hm])]
  rw [scanKw, if_neg (by simp [matchHere, hb2])]
  rfl

/-- A mixed-case variant of `squat` followed by any non-word character is
counted exactly once. -/
theorem countKeyword_case_variant (d : Char) (hd : isWordChar d = false) :
    countKeyword "squat" ⟨"SqUaT".data ++ [d]⟩ = 1 := by
  have hcons :
      consumeCI ['s', 'q', 'u', 'a', 't'] ['S', 'q', 'U', 'a', 'T', d]
        = some [d] := rfl
  have hm :
      matchHere ['s', 'q', 'u', 'a', 't'] ['S', 'q', 'U', 'a', 'T', d] none
        = true := by
    simp [matchHere, hcons, boundaryOkR, boundaryOkL, hd]
  show scanKw ['s', 'q', 'u', 'a', 't'] 0 none ['S', 'q', 'U', 'a', 'T', d] = 1
  rw [scanKw, if_pos (by simp [hm])]
  rfl

/-! ### Lemmas about the fetcher probe loop -/

/-- A candidate yields no text when it does not exist or when its parsed
body has no events collection.  The probe returns the failure whenever no
candidate in the list yields a text. -/
theorem try_subtitle_files_no_text (fs : String → Option SubData) :
    ∀ l : List String,
      (∀ f ∈ l, ∀ d, fs f = some d → subtitle_text d = none) →
      try_subtitle_files fs l = .failure "No subtitles found"
  | [], _ => rfl
  | f :: rest, h => by
    rw [try_subtitle_files]
    have hrest := try_subtitle_files_no_text fs rest
      (fun g hg => h g (List.mem_cons_of_mem _ hg))
    cases hf : fs f with
    | none => exact hrest
    | some d =>
      simp only [h f (List.mem_cons_self f rest) d hf]
      exact hrest

/-- A prefix of candidates none of which yields a text is skipped over by
the probe. -/
theorem try_subtitle_files_skips_no_text (fs : String → Option SubData) :
    ∀ (pre rest : List String),
      (∀ f ∈ pre, ∀ d, fs f = some d → subtitle_text d = none) →
      try_subtitle_files fs (pre ++ rest) = try_subtitle_files fs rest
  | [], _, _ => rfl
  | f :: pre, rest, h => by
    rw [List.cons_append, try_subtitle_files]
    have hpre := try_subtitle_files_skips_no_text fs pre rest
      (fun g hg => h g (List.mem_cons_of_mem _ hg))
    cases hf : fs f with
    | none => exact hpre
    | some d =>
      simp only [h f (List.mem_cons_self f pre) d hf]
      exact hpre

/-- The probe uses the first candidate that yields a text: if no candidate
before `f` yields one, `f` exists and its body yields `t`, the result is
the success carrying `t`, whatever comes after `f`. -/
theorem try_subtitle_files_first_text (fs : String → Option SubData)
    (pre : List String) (f : String) (post : List String) (d : SubData)
    (t : String)
    (hpre : ∀ g ∈ pre, ∀ d', fs g = some d' → subtitle_text d' = none)
    (hf : fs f = some d) (ht : subtitle_text d = some t) :
    try_subtitle_files fs (pre ++ f :: post)
      = .success t "en" "yt-dlp" := by
  rw [try_subtitle_files_skips_no_text fs pre (f :: post) hpre,
    try_subtitle_files, hf]
  simp only [ht]

/-! ## The claims -/

/-- C1: Keyword matching in the Scorer is word-boundary-delimited and
case-insensitive: an occurrence of `squat` embedded in a longer word (a
word character adjacent on either side, e.g. the text `squatting`) is not
counted, while an occurrence differing only in letter case (e.g. `Squat`,
`SqUaT`) is counted. -/
theorem C1_keyword_word_boundary_case_insensitive (c d : Char)
    (hc : isWordChar c = true) (hd : isWordChar d = false) :
    countKeyword "squat" "squatting" = 0
    ∧ countKeyword "squat" "Squat" = 1
    ∧ countKeyword "squat" ⟨"squat".data ++ [c]⟩ = 0
    ∧ countKeyword "squat" ⟨c :: "squat".data⟩ = 0
    ∧ countKeyword "squat" ⟨"SqUaT".data ++ [d]⟩ = 1
    ∧ (calculate_fitness_score "squatting").1 = 0
    ∧ (calculate_fitness_score "Squat").1 = 1 :=
  ⟨by decide, by decide,
   countKeyword_append_wordchar c hc,
   countKeyword_prepend_wordchar c hc,
   countKeyword_case_variant d hd,
   by decide, by decide⟩

/-- Witness for C1 at `c := 't'` (a word character, giving `squatt`) and
`d := ' '` (not a word character). -/
theorem C1_witness :
    countKeyword "squat" ⟨"squat".data ++ ['t']⟩ = 0
    ∧ countKeyword "squat" ⟨"SqUaT".data ++ [' ']⟩ = 1 :=
  ⟨(C1_keyword_word_boundary_case_insensitive 't' ' ' (by decide)
      (by decide)).2.2.1,
   (C1_keyword_word_boundary_case_insensitive 't' ' ' (by decide)
      (by decide)).2.2.2.2.1⟩

/-- C2: the Scorer total score is the sum of all per-keyword whole-word
match counts; an artifact appears in the output exactly when its
score reaches the threshold; the output is ranked descending by score; and
the transcript with `squat` 3 times and `deadlift` 2 times scores 5, is
included at threshold 5 and excluded at threshold 6. -/
theorem C2_score_sum_threshold_ranking (files : List (String × String))
    (ms : Nat) :
    (∀ text, (calculate_fitness_score text).1
        = (FITNESS_KEYWORDS.map (fun kw => countKeyword kw text)).sum)
    ∧ (∀ e ∈ find_fitness_videos files ms, ms ≤ e.fitness_score)
    ∧ (∀ e, e ∈ find_fitness_videos files ms
        ↔ ∃ p ∈ files,
            mkEntry FITNESS_KEYWORDS ms (load_transcript p.1 p.2) = some e)
    ∧ (find_fitness_videos files ms).Pairwise
        (fun a b => b.fitness_score ≤ a.fitness_score)
    ∧ find_fitness_videos [("vid1.txt", exContent)] 5 = [exEntry5]
    ∧ find_fitness_videos [("vid1.txt", exContent)] 6 = [] := by
  refine ⟨fun text => calc_fst_eq_sum FITNESS_KEYWORDS text, ?_, ?_, ?_,
    by decide, by decide⟩
  · intro e he
    obtain ⟨p, _, hmk⟩ :=
      (mem_find_fitness_videos_with FITNESS_KEYWORDS files ms e).mp he
    exact (mkEntry_qualifies _ _ _ _ hmk).1
  · exact fun e => mem_find_fitness_videos_with FITNESS_KEYWORDS files ms e
  · exact sortDescBy_sorted FitnessEntry.fitness_score _

/-- Witness for C2 at the example transcript: the entry for `exContent`
at threshold 5 has score at least 5. -/
theorem C2_witness : 5 ≤ exEntry5.fitness_score :=
  (C2_score_sum_threshold_ranking [("vid1.txt", exContent)] 5).2.1 exEntry5
    (by
      rw [(C2_score_sum_threshold_ranking [("vid1.txt", exContent)]
        5).2.2.2.2.1]
      exact List.mem_singleton.mpr rfl)

/-- C3: for every subtitle body with a top-level `events` collection, the
transcript text of the Fetcher is the concatenation, with single-space
separators and surrounding whitespace stripped, of every `utf8` field of
every segment in the `segs` sub-collection of every event, in order; on the body
`{"events":[{"segs":[{"utf8":"hello"},{"utf8":"world"}]}]}` the full fetch
returns the text `hello world`. -/
theorem C3_segment_concatenation (d : SubData) (evs : List Event)
    (h : d.events = some evs) :
    subtitle_text d = some (py_strip (py_join " " (spec_fragments evs)))
    ∧ fetch_transcript_ytdlp exFs3 "vid1"
        = .success "hello world" "en" "yt-dlp" := by
  constructor
  · rw [subtitle_text, h]
    simp [extract_full_text, collect_texts_eq_spec]
  · decide

/-- Witness for C3 at the example body. -/
theorem C3_witness :
    subtitle_text exSub3
      = some (py_strip (py_join " "
          (spec_fragments [⟨some [⟨some "hello"⟩, ⟨some "world"⟩]⟩]))) :=
  (C3_segment_concatenation exSub3 [⟨some [⟨some "hello"⟩, ⟨some "world"⟩]⟩]
    rfl).1

/-- C4 (counterexample): the claim says the Fetcher uses the first
candidate that exists.  Here the plain-English candidate exists but its
body has no `events` collection (so it yields no text), and the returned
text `hi` is the one extracted from the en-US candidate: the first existing
candidate is probed but not used. -/
theorem C4_counterexample :
    exFs4 "/tmp/yt_transcript_v.en.json3" = some ⟨none⟩
    ∧ subtitle_text ⟨none⟩ = none
    ∧ exFs4 "/tmp/yt_transcript_v.en-US.json3"
        = some ⟨some [⟨some [⟨some "hi"⟩]⟩]⟩
    ∧ subtitle_text ⟨some [⟨some [⟨some "hi"⟩]⟩]⟩ = some "hi"
    ∧ fetch_transcript_ytdlp exFs4 "v" = .success "hi" "en" "yt-dlp" := by
  decide

/-- C4 (amended): the Fetcher probes the fixed candidate files in the
priority order plain English, en-US, en-GB, and uses the first candidate
that exists *and whose body has a top-level events collection*: for every
split of the candidate list, if no earlier candidate yields a text (it is
absent, or present without an events collection) and the candidate at the
split exists with a body yielding a text, that text is returned.  Whenever
no candidate yields a text — in particular when none of the candidate
files exists — it returns the failure `No subtitles found`, and every path
returns a value. -/
theorem C4_candidate_probe_order (vid : String)
    (fs : String → Option SubData)
    (h : ∀ f ∈ subtitle_files vid, ∀ d, fs f = some d →
      subtitle_text d = none) :
    fetch_transcript_ytdlp fs vid = .failure "No subtitles found"
    ∧ subtitle_files vid =
        ["/tmp/yt_transcript_" ++ vid ++ ".en.json3",
         "/tmp/yt_transcript_" ++ vid ++ ".en-US.json3",
         "/tmp/yt_transcript_" ++ vid ++ ".en-GB.json3"]
    ∧ (∀ (g : String → Option SubData) (pre : List String) (f : String)
          (post : List String) (d : SubData) (t : String),
        subtitle_files vid = pre ++ f :: post →
        (∀ f' ∈ pre, ∀ d', g f' = some d' → subtitle_text d' = none) →
        g f = some d → subtitle_text d = some t →
        fetch_transcript_ytdlp g vid = .success t "en" "yt-dlp") := by
  refine ⟨try_subtitle_files_no_text fs _ h, rfl, ?_⟩
  intro g pre f post d t hsplit hpre hf ht
  unfold fetch_transcript_ytdlp
  rw [hsplit]
  exact try_subtitle_files_first_text g pre f post d t hpre hf ht

/-- Witness for C4: on the empty file system the fetch fails with
`No subtitles found`; on a file system whose plain-English candidate is
events-less and whose en-US candidate is absent, the en-GB text is the one
returned. -/
theorem C4_witness :
    fetch_transcript_ytdlp (fun _ => none) "v"
      = .failure "No subtitles found"
    ∧ fetch_transcript_ytdlp exFsGB "v" = .success "gb" "en" "yt-dlp" := by
  have hthm := C4_candidate_probe_order "v" (fun _ => none)
    (fun _ _ _ hd => Option.noConfusion hd)
  refine ⟨hthm.1, ?_⟩
  refine hthm.2.2 exFsGB
    ["/tmp/yt_transcript_v.en.json3", "/tmp/yt_transcript_v.en-US.json3"]
    "/tmp/yt_transcript_v.en-GB.json3" [] ⟨some [⟨some [⟨some "gb"⟩]⟩]⟩
    "gb" rfl ?_ rfl rfl
  intro f' hf' d hd
  rcases List.mem_cons.mp hf' with rfl | hf'
  · have hd' : some (⟨none⟩ : SubData) = some d := hd
    rw [← Option.some.inj hd']
    rfl
  · rcases List.mem_cons.mp hf' with rfl | hf'
    · exact Option.noConfusion hd
    · cases hf'

/-- C5: the Enumerator parses stdout line by line, keeping exactly the
lines containing a pipe (lines without one are skipped, not fatal), each
URL of each record is derived from its id as
`https://www.youtube.com/watch?v=<id>`, and the example stdout yields
exactly the two expected records. -/
theorem C5_stdout_line_parsing (stdout : String) :
    parse_stdout stdout
      = (((py_split_nl (py_strip stdout).data).map
            (fun l => (⟨l⟩ : String))).filter contains_pipe).map
          line_to_record
    ∧ (∀ r ∈ parse_stdout stdout,
        r.url = "https://www.youtube.com/watch?v=" ++ r.video_id)
    ∧ parse_stdout "abc123|My Title\ndef456|Other\n"
        = [⟨"abc123", "My Title", "https://www.youtube.com/watch?v=abc123"⟩,
           ⟨"def456", "Other", "https://www.youtube.com/watch?v=def456"⟩] := by
  have hchar := foldl_append_filter_map contains_pipe line_to_record
    ((py_split_nl (py_strip stdout).data).map (fun l => (⟨l⟩ : String))) []
  refine ⟨?_, ?_, by decide⟩
  · unfold parse_stdout
    rw [hchar, List.nil_append]
  · intro r hr
    unfold parse_stdout at hr
    rw [hchar, List.nil_append] at hr
    obtain ⟨l, _, rfl⟩ := List.mem_map.mp hr
    rfl

/-- Witness for C5: a record of the example stdout satisfies the derived
URL property. -/
theorem C5_witness :
    (⟨"abc123", "My Title",
      "https://www.youtube.com/watch?v=abc123"⟩ : VideoRecord).url
      = "https://www.youtube.com/watch?v="
          ++ (⟨"abc123", "My Title",
               "https://www.youtube.com/watch?v=abc123"⟩ : VideoRecord).video_id :=
  (C5_stdout_line_parsing "abc123|My Title\ndef456|Other\n").2.1
    ⟨"abc123", "My Title", "https://www.youtube.com/watch?v=abc123"⟩
    (by decide)

/-- C6: on a non-zero exit code the Enumerator returns a failure carrying
the stderr of the process verbatim; on an elapsed bounded wait it returns the
`Timeout` failure; and any other exception is likewise converted into a
returned failure, so nothing escapes the boundary of the Enumerator. -/
theorem C6_nonzero_exit_and_timeout (rc : Int) (out err : String)
    (h : rc ≠ 0) :
    fetch_channel_videos (.completed rc out err) = .failure err
    ∧ fetch_channel_videos .timedOut = .failure "Timeout"
    ∧ (∀ msg, fetch_channel_videos (.raised msg) = .failure msg) := by
  refine ⟨?_, rfl, fun msg => rfl⟩
  have hb : (rc != 0) = true := by simp [bne_iff_ne, h]
  simp [fetch_channel_videos, hb]

/-- Witness for C6 at exit code 1. -/
theorem C6_witness :
    fetch_channel_videos (.completed 1 "out" "boom") = .failure "boom" :=
  (C6_nonzero_exit_and_timeout 1 "out" "boom" (by decide)).1

/-- C7 (counterexample): in a 3-item batch whose second item fails with an
invalid URL (so it produces a FailureRecord), the run yields 2 successes
and 1 FailureRecord, but the delay runs only once, not twice: the
`continue` of the invalid-URL branch skips the inter-item sleep. -/
theorem C7_counterexample :
    (process_videos fetchAllOk urlsInvalidSecond).successes.length = 2
    ∧ (process_videos fetchAllOk urlsInvalidSecond).failed
        = [⟨"not a url", none, "Invalid URL"⟩]
    ∧ (process_videos fetchAllOk urlsInvalidSecond).sleeps = 1 := by
  decide

/-- C7 (amended): for items whose URL parses, the fixed delay is applied
after every item except the last, and is not skipped when an item fails at
the fetch step — in a batch of n parseable items the delay runs exactly
n - 1 times whatever the fetch outcomes; in the 3-item batch where item 2
fails at the fetch step the output has exactly 2 successes, 1
FailureRecord, and 2 delays.  (Items recorded as failed for an unparseable
URL do skip the delay, as the counterexample shows.) -/
theorem C7_delay_between_items (fetch : String → String → FetchResult)
    (urls : List String)
    (hv : ∀ u ∈ urls, extract_video_id u ≠ none) :
    (process_videos fetch urls).sleeps = urls.length - 1
    ∧ (process_videos fetchFailSecond urlsFetchFailSecond).successes.length
        = 2
    ∧ (process_videos fetchFailSecond urlsFetchFailSecond).failed.length = 1
    ∧ (process_videos fetchFailSecond urlsFetchFailSecond).sleeps = 2 := by
  refine ⟨?_, by decide, by decide, by decide⟩
  unfold process_videos
  rw [runBatch_sleeps fetch urls.length urls 1 ⟨[], [], 0⟩ hv (by omega)]
  simp

/-- Witness for C7 at a single-item batch: no delay at all. -/
theorem C7_witness :
    (process_videos fetchAllOk
      ["https://www.youtube.com/watch?v=aaa"]).sleeps = 0 := by
  have h := (C7_delay_between_items fetchAllOk
    ["https://www.youtube.com/watch?v=aaa"] (by decide)).1
  simpa using h

/-- C8 (counterexample): the claim says the output lists the unique URLs
in the order of their first occurrence in the input.  In this input the
short-form URL occurs strictly before the full video URL, yet the output
lists the full video URL first, because the source collects all matches of
the watch pattern before any match of the shorts pattern. -/
theorem C8_counterexample :
    extract_youtube_videos mixedOrderText
      = ["https://www.youtube.com/watch?v=BBB",
         "https://www.youtube.com/shorts/AAA"]
    ∧ mixedOrderText
        = "https://www.youtube.com/shorts/AAA" ++ " "
            ++ "https://www.youtube.com/watch?v=BBB"
    ∧ ("https://www.youtube.com/watch?v=BBB" : String)
        ≠ "https://www.youtube.com/shorts/AAA" := by
  decide

/-- C8 (amended): both extractors output the first-occurrence
deduplication of their normalized match stream, hence no duplicates; for
the video extractor the stream lists all full-video-URL matches in input
order followed by all short-form matches in input order (so across the two
pattern kinds the order is per-pattern, not global input-position order),
while the single-pattern stream of the channel extractor is in input order. -/
theorem C8_dedup_first_occurrence (content : String) :
    extract_youtube_videos content
      = first_occurrence_dedup
          ((findAllUrls "youtube.com/watch?v=" wordDash content ++
            findAllUrls "youtube.com/shorts/" wordDash content).map clean_url)
    ∧ (extract_youtube_videos content).Nodup
    ∧ extract_channel_urls content
        = first_occurrence_dedup
            ((findAllLitAux "https://www.youtube.com/@".data channelChar 0
                content.data).map py_rstrip_slash)
    ∧ (extract_channel_urls content).Nodup
    ∧ extract_channel_urls
        ("a https://www.youtube.com/@foo b https://www.youtube.com/@bar c "
          ++ "https://www.youtube.com/@foo")
        = ["https://www.youtube.com/@foo", "https://www.youtube.com/@bar"]
    := by
  refine ⟨dedup_clean_fold_eq _ _, ?_, dedup_clean_fold_eq _ _, ?_,
    by decide⟩
  · unfold extract_youtube_videos
    rw [dedup_clean_fold_eq]
    exact nodup_first_occurrence_dedup _
  · unfold extract_channel_urls
    rw [dedup_clean_fold_eq]
    exact nodup_first_occurrence_dedup _

/-- Witness for C8 at the mixed-order input: its output has no
duplicates. -/
theorem C8_witness : (extract_youtube_videos mixedOrderText).Nodup :=
  (C8_dedup_first_occurrence mixedOrderText).2.1

/-- C9 (counterexample): the two keyword lists are enumeration orders of
the same keyword set (they are permutations of each other), yet on a
transcript with tied counts (`squat` 3, `deadlift` 3) the ranked outputs
differ — the order of the tied keywords in `top_keywords` follows the
enumeration order, which a Python `set` does not fix across interpreter
runs. -/
theorem C9_counterexample :
    FITNESS_KEYWORDS.Perm FITNESS_KEYWORDS_ALT
    ∧ find_fitness_videos_with FITNESS_KEYWORDS [("vid2.txt", tieContent)] 5
        ≠ find_fitness_videos_with FITNESS_KEYWORDS_ALT
            [("vid2.txt", tieContent)] 5 := by
  have hA :
      find_fitness_videos_with FITNESS_KEYWORDS [("vid2.txt", tieContent)] 5
        = [⟨"vid2", "http://u2", "vid2.txt", 6,
            [("squat", 3), ("deadlift", 3)]⟩] := by decide
  have hB :
      find_fitness_videos_with FITNESS_KEYWORDS_ALT
          [("vid2.txt", tieContent)] 5
        = [⟨"vid2", "http://u2", "vid2.txt", 6,
            [("deadlift", 3), ("squat", 3)]⟩] := by decide
  refine ⟨by decide, ?_⟩
  rw [hA, hB]
  decide

/-- C9 (amended): the Scorer is deterministic once the keyword enumeration
order is fixed (it is a pure function of its input here); across
enumeration orders of the keyword set, the total score and the multiset of
(keyword, count) matches are invariant — only the ordering of tied
keywords in the reported list can differ. -/
theorem C9_score_invariant_under_keyword_order (kws kws' : List String)
    (text : String) (h : kws.Perm kws') :
    (calculate_fitness_score_with kws text).1
        = (calculate_fitness_score_with kws' text).1
    ∧ (calculate_fitness_score_with kws text).2.Perm
        (calculate_fitness_score_with kws' text).2 := by
  constructor
  · rw [calc_fst_eq_sum, calc_fst_eq_sum]
    exact (h.map _).sum_eq
  · rw [calc_snd_eq_filterMap, calc_snd_eq_filterMap]
    exact h.filterMap _

/-- Witness for C9 at the two enumeration orders on a one-word text. -/
theorem C9_witness :
    (calculate_fitness_score_with FITNESS_KEYWORDS "squat").1
      = (calculate_fitness_score_with FITNESS_KEYWORDS_ALT "squat").1 :=
  (C9_score_invariant_under_keyword_order FITNESS_KEYWORDS
    FITNESS_KEYWORDS_ALT "squat" (by decide)).1

/-- C10: on the empty URL list the batch run does not produce its summary
— the `success_count/total*100` of the summary raises `ZeroDivisionError`
when `total = 0` — while on every non-empty list, whatever the per-item
outcomes, the run completes and prints the summary. -/
theorem C10_empty_batch_division_by_zero
    (fetch : String → String → FetchResult) (urls : List String)
    (h : urls ≠ []) :
    process_videos_run fetch [] = none
    ∧ (process_videos_run fetch urls).isSome = true := by
  constructor
  · rfl
  · unfold process_videos_run
    have hl : urls.length ≠ 0 := fun hl => h (List.length_eq_zero.mp hl)
    simp [success_rate, hl]

/-- Witness for C10: the one-item batch (even with an unparseable URL)
completes with a summary; the empty batch does not. -/
theorem C10_witness :
    process_videos_run fetchAllOk [] = none
    ∧ (process_videos_run fetchAllOk ["x"]).isSome = true :=
  ⟨(C10_empty_batch_division_by_zero fetchAllOk ["x"] (by decide)).1,
   (C10_empty_batch_division_by_zero fetchAllOk ["x"] (by decide)).2⟩

end FitnessPipeline
